import Mathlib

/-!
Verification of the JSON-to-TOON conversion core of `app.py`
(`json_to_toon`, `format_value`, `validate_toon`, `verify_toon_roundtrip`).

The Python code is shallowly embedded: the JSON value model becomes the
inductive `Value`, Python strings become Lean `String`s manipulated through
their underlying `List Char` (so that every operation is structurally
recursive and kernel-computable), and each Python function becomes a Lean
definition that mirrors its branches.  Numbers are modelled as `Int`
(Python ints rendered by `str`); floating point values are outside the model.
-/

namespace JsonToToon

/-- The JSON value model: the input type of the converter.  Objects keep
insertion order, as Python dicts do. -/
inductive Value where
  | null
  | bool (b : Bool)
  | num (n : Int)
  | str (s : String)
  | arr (items : List Value)
  | obj (entries : List (String × Value))
deriving Inhabited

/-! ### Character and string helpers

Python string primitives (`strip`, `lstrip`, `split`, `join`, `startswith`,
`in`) re-implemented over `List Char` by plain structural recursion. -/

/-- Python whitespace, as stripped by `str.strip()` (ASCII part). -/
def isPyWs (c : Char) : Bool :=
  c = ' ' || c = '\t' || c = '\n' || c = '\r' || c = '\x0b' || c = '\x0c'

/-- Python `s.lstrip()`. -/
def pyLstrip (s : String) : String := ⟨s.data.dropWhile isPyWs⟩

/-- Python `s.strip()`. -/
def pyStrip (s : String) : String :=
  ⟨((s.data.dropWhile isPyWs).reverse.dropWhile isPyWs).reverse⟩

/-- Python `s.split(sep)` for a one-character separator, on char lists.
The accumulator holds the current piece reversed. -/
def splitChAux (sep : Char) : List Char → List Char → List (List Char)
  | [], acc => [acc.reverse]
  | c :: rest, acc =>
      if c = sep then acc.reverse :: splitChAux sep rest []
      else splitChAux sep rest (c :: acc)

/-- Python `s.split('\n')`. -/
def splitNL (s : String) : List String :=
  (splitChAux '\n' s.data []).map (fun cs => ⟨cs⟩)

/-- Python `s.split(',')`. -/
def splitComma (s : String) : List String :=
  (splitChAux ',' s.data []).map (fun cs => ⟨cs⟩)

/-- Python `s.split(' | ')`: the three-character separator scanned
left-to-right without overlap. -/
def splitPipeAux : List Char → List Char → List (List Char)
  | ' ' :: '|' :: ' ' :: rest, acc => acc.reverse :: splitPipeAux rest []
  | c :: rest, acc => splitPipeAux rest (c :: acc)
  | [], acc => [acc.reverse]

/-- Python `s.split(' | ')`. -/
def splitPipe (s : String) : List String :=
  (splitPipeAux s.data []).map (fun cs => ⟨cs⟩)

/-- Python `' | ' in s`. -/
def hasPipeSep : List Char → Bool
  | ' ' :: '|' :: ' ' :: _ => true
  | _ :: rest => hasPipeSep rest
  | [] => false

/-- Python `sep.join(pieces)`. -/
def joinWith (sep : String) : List String → String
  | [] => ""
  | [x] => x
  | x :: y :: xs => x ++ sep ++ joinWith sep (y :: xs)

/-- Python `s.startswith('-')`. -/
def startsWithDash (s : String) : Bool := s.data.head? = some '-'

/-- The text up to (not including) the first newline: the first physical
line of a multi-line string. -/
def headLine (s : String) : String := ⟨s.data.takeWhile (fun c => c ≠ '\n')⟩

/-- Python `'  ' * indent`: the indentation for a nesting level. -/
def indent_string (indent : Nat) : String := ⟨List.replicate (2 * indent) ' '⟩

/-- Python `s.strip('"\x27')`: surrounding single/double quotes removed. -/
def isQuoteCh (c : Char) : Bool := c = '"' || c = '\''

/-- Strip surrounding quote characters from both ends (Python
`str.strip('"\x27')`). -/
def stripQuotes (s : String) : String :=
  ⟨((s.data.dropWhile isQuoteCh).reverse.dropWhile isQuoteCh).reverse⟩

/-! ### Decimal rendering of integers (Python `str(int)`) -/

/-- Lowercase hexadecimal digit characters (also used for decimal digits). -/
def hexDigit (m : Nat) : Char :=
  if m < 10 then Char.ofNat (48 + m) else Char.ofNat (87 + m)

/-- Decimal digits of a natural number, most significant first.  The fuel
argument makes the recursion structural; `n + 1` divisions always suffice. -/
def natDigitsAux : Nat → Nat → List Char
  | 0, _ => []
  | fuel + 1, n =>
      if n < 10 then [hexDigit n]
      else natDigitsAux fuel (n / 10) ++ [hexDigit (n % 10)]

/-- Python `str(n)` for a natural number. -/
def natStr (n : Nat) : String := ⟨natDigitsAux (n + 1) n⟩

/-- Python `str(n)` for an integer. -/
def intStr : Int → String
  | .ofNat m => natStr m
  | .negSucc m => "-" ++ natStr (m + 1)

/-! ### JSON string escaping (Python `json.dumps` on a `str`)

`json.dumps` with its defaults (`ensure_ascii=True`) emits the shortcut
escapes for quote, backslash and the named control characters, `\uXXXX`
escapes (with surrogate pairs above the BMP) for every other character
outside printable ASCII `0x20..0x7e`, and all remaining characters
verbatim. -/

/-- A four-digit lowercase `\uXXXX` escape. -/
def uEsc (n : Nat) : List Char :=
  ['\\', 'u', hexDigit (n / 4096 % 16), hexDigit (n / 256 % 16),
   hexDigit (n / 16 % 16), hexDigit (n % 16)]

/-- The `json.dumps` rendering of one character of a string. -/
def escape_char (c : Char) : List Char :=
  if c = '"' then ['\\', '"']
  else if c = '\\' then ['\\', '\\']
  else if c = '\n' then ['\\', 'n']
  else if c = '\r' then ['\\', 'r']
  else if c = '\t' then ['\\', 't']
  else if c = '\x08' then ['\\', 'b']
  else if c = '\x0c' then ['\\', 'f']
  else if c.toNat < 0x20 || c.toNat > 0x7e then
    if c.toNat ≥ 0x10000 then
      uEsc (0xd800 + (c.toNat - 0x10000) / 0x400) ++
        uEsc (0xdc00 + (c.toNat - 0x10000) % 0x400)
    else uEsc c.toNat
  else [c]

/-- Python `json.dumps(s)` for a string `s`: the double-quoted, escaped
JSON string literal. -/
def json_dumps_str (s : String) : String :=
  ⟨'"' :: s.data.flatMap escape_char ++ ['"']⟩

/-! ### The value predicates used by the encoder -/

/-- Python `isinstance(v, (str, int, float, bool, type(None)))`. -/
def isPrimitive : Value → Bool
  | .arr _ => false
  | .obj _ => false
  | _ => true

/-- Python `isinstance(v, (dict, list)) and v`: a non-empty collection. -/
def nonEmptyColl : Value → Bool
  | .arr items => !items.isEmpty
  | .obj es => !es.isEmpty
  | _ => false

/-- Python truthiness of a JSON value (`if json_data:`). -/
def truthy : Value → Bool
  | .null => false
  | .bool b => b
  | .num n => n ≠ 0
  | .str s => s ≠ ""
  | .arr items => !items.isEmpty
  | .obj es => !es.isEmpty

/-- The characters that force a string to be JSON-quoted by `format_value`
(`app.py` line 173). -/
def special_chars : List Char := ['\n', '"', ':', '|', '[', ']', '\x7b', '\x7d']

/-- Python `any(char in value for char in [...])` from `format_value`. -/
def has_special (s : String) : Bool := special_chars.any (fun c => s.data.contains c)

/-- The scalar formatter `format_value` (`app.py` lines 165-179).  The final
Python fallback is `json.dumps(value)`; inside this program it is only ever
reached by empty collections (the encoder intercepts non-empty ones), for
which `json.dumps` returns the empty markers modelled here. -/
def format_value : Value → String
  | .null => "null"
  | .bool b => if b then "true" else "false"
  | .str s => if has_special s then json_dumps_str s else s
  | .num n => intStr n
  | .arr _ => "[]"
  | .obj _ => "\x7b\x7d"

/-! ### Tabular rendering (`app.py` lines 62-89 and 117-143) -/

/-- One row of a tabular array is usable iff it is a non-empty object all of
whose values are primitive (the per-item condition of `app.py` lines 62-65
and 118-120). -/
def tabular_row_ok : Value → Bool
  | .obj es => !es.isEmpty && es.all (fun e => isPrimitive e.2)
  | _ => false

/-- The tabular guard `all(isinstance(item, dict) and len(item) > 0 and
all(... primitives ...) for item in value)`. -/
def tabular_check (items : List Value) : Bool := items.all tabular_row_ok

/-- The tabular branch as actually guarded in the source: the array must be
non-empty (`app.py` lines 60 and 109) and pass `tabular_check`. -/
def tabular_eligible (items : List Value) : Bool :=
  !items.isEmpty && tabular_check items

/-- Python `list(value[0].keys())`: the field list of a table, taken from
the first element (which the guard guarantees is an object). -/
def firstKeys : List Value → List String
  | .obj es :: _ => es.map (fun e => e.1)
  | _ => []

/-- First-match association lookup (Python `dict` access; keys are unique
in a Python dict, so first-match agrees with it). -/
def lookupEntry : List (String × Value) → String → Option Value
  | [], _ => none
  | (k', v) :: rest, k => if k' = k then some v else lookupEntry rest k

/-- Python `item.get(k, '')`: the value under the key, or the empty string
when the key is absent. -/
def objGet (item : Value) (k : String) : Value :=
  match item with
  | .obj es => (lookupEntry es k).getD (.str "")
  | _ => .str ""

/-- The cell rendering of one tabular value (`app.py` lines 78-87):
`null` for None, lowercased booleans, strings wrapped in bare double
quotes when they contain a pipe or newline, and `str(val)` otherwise.
The collection cases are unreachable: the tabular guard admits only
primitive values, and the absent-key default is a string. -/
def format_cell : Value → String
  | .null => "null"
  | .bool b => if b then "true" else "false"
  | .str s =>
      if s.data.contains '|' || s.data.contains '\n' then "\"" ++ s ++ "\"" else s
  | .num n => intStr n
  | .arr _ => ""
  | .obj _ => ""

/-- The rendered cells of one table row, one per field of the field list. -/
def row_values (keys : List String) (item : Value) : List String :=
  keys.map (fun k => format_cell (objGet item k))

/-- The lines of a rendered table: the pipe-joined header of field names,
then one pipe-joined row per element, all behind the given indentation. -/
def table_lines (items : List Value) (indent_str : String) : List String :=
  let keys := firstKeys items
  (indent_str ++ joinWith " | " keys) ::
    items.map (fun item => indent_str ++ joinWith " | " (row_values keys item))

/-- Key escaping of the encoder (`app.py` lines 56-58): a key is wrapped in
bare double quotes iff it contains a space, colon or newline. -/
def key_needs_quote (k : String) : Bool :=
  k.data.contains ' ' || k.data.contains ':' || k.data.contains '\n'

/-- The rendered form of an object key. -/
def key_string (k : String) : String :=
  if key_needs_quote k then "\"" ++ k ++ "\"" else k

/-! ### The structural encoder `json_to_toon` (`app.py` lines 35-162)

The Python function accumulates a list `lines` and joins it with newlines;
the object and list loops become the mutually recursive `obj_lines` and
`list_lines`.  A nested block is appended to `lines` as a single (possibly
multi-line) element, exactly as Python does at lines 96-98. -/

mutual

/-- The encoder: JSON value plus indentation level to TOON text. -/
def json_to_toon (data : Value) (indent : Nat) : String :=
  match data with
  | .obj es =>
      if es.isEmpty then "\x7b\x7d"
      else joinWith "\n" (obj_lines es indent)
  | .arr items =>
      if items.isEmpty then "[]"
      else if items.all isPrimitive then
        "[" ++ joinWith ", " (items.map format_value) ++ "]"
      else if tabular_check items then
        joinWith "\n" (table_lines items (indent_string indent))
      else joinWith "\n" (list_lines items indent)
  | v => format_value v
termination_by sizeOf data
decreasing_by all_goals simp_wf

/-- The per-entry loop of the object branch (`app.py` lines 54-104). -/
def obj_lines (es : List (String × Value)) (indent : Nat) : List String :=
  match es with
  | [] => []
  | (key, value) :: rest =>
      let indent_str := indent_string indent
      let key_str := key_string key
      let entry :=
        if nonEmptyColl value then
          match value with
          | .arr items =>
              if tabular_check items then
                (indent_str ++ key_str ++ ":") ::
                  table_lines items (indent_string (indent + 1))
              else
                [indent_str ++ key_str ++ ":", json_to_toon (.arr items) (indent + 1)]
          | v2 => [indent_str ++ key_str ++ ":", json_to_toon v2 (indent + 1)]
        else
          [indent_str ++ key_str ++ ": " ++ format_value value]
      entry ++ obj_lines rest indent
termination_by sizeOf es
decreasing_by all_goals simp_wf <;> omega

/-- The per-item loop of the regular list branch (`app.py` lines 145-157):
a bare dash line followed by the item's re-indented non-blank lines for a
non-empty collection, and a dash-space-content line otherwise. -/
def list_lines (items : List Value) (indent : Nat) : List String :=
  match items with
  | [] => []
  | item :: rest =>
      let indent_str := indent_string indent
      let item_str := json_to_toon item indent
      let entry :=
        if nonEmptyColl item then
          (indent_str ++ "-") ::
            (splitNL item_str).filterMap (fun line =>
              if pyStrip line = "" then none
              else some (indent_str ++ "  " ++ pyLstrip line))
        else
          [indent_str ++ "- " ++ item_str]
      entry ++ list_lines rest indent
termination_by sizeOf items
decreasing_by all_goals simp_wf <;> omega

end

/-- The lines contributed by one element of a regular (per-item) list: the
body of the loop at `app.py` lines 147-157, factored out of `list_lines`
for reasoning about single items. -/
def item_lines (indent : Nat) (item : Value) : List String :=
  if nonEmptyColl item then
    (indent_string indent ++ "-") ::
      (splitNL (json_to_toon item indent)).filterMap (fun line =>
        if pyStrip line = "" then none
        else some (indent_string indent ++ "  " ++ pyLstrip line))
  else
    [indent_string indent ++ "- " ++ json_to_toon item indent]

/-! ### The line-oriented validator `validate_toon` (`app.py` lines 182-279)

The Python loop walks the lines with an index `i`, and each iteration
either returns a failure or continues; the `try` body contains no raising
operation, so the `except` arm is dead.  The indentation inspection inside
the key-value branch (lines 236-249) computes values and then always falls
through to `pass`, so it has no observable effect and the branch always
continues. -/

/-- One pass of the validator loop over the remaining lines; `i` is the
zero-based index of the first remaining line (line numbers in messages are
`i + 1`). -/
def validateLines : List String → Nat → Bool × Option String
  | [], _ => (true, none)
  | line :: rest, i =>
      let stripped := pyStrip line
      if stripped = "" then validateLines rest (i + 1)
      else if hasPipeSep stripped.data && !startsWithDash stripped then
        let parts := (splitPipe stripped).map pyStrip
        if parts.isEmpty || !parts.all (fun p => p ≠ "") then
          (false, some ("Invalid tabular format at line " ++ natStr (i + 1) ++
            ": empty columns"))
        else validateLines rest (i + 1)
      else if startsWithDash stripped then
        let content := pyStrip ⟨stripped.data.drop 1⟩
        if content = "" then
          (false, some ("Empty list item at line " ++ natStr (i + 1)))
        else validateLines rest (i + 1)
      else if stripped.data.contains ':' then
        let key := pyStrip ⟨stripped.data.takeWhile (fun c => c ≠ ':')⟩
        if key = "" then
          (false, some ("Empty key at line " ++ natStr (i + 1)))
        else validateLines rest (i + 1)
      else if stripped.data.head? = some '[' && stripped.data.getLast? = some ']' then
        let content := pyStrip ⟨(stripped.data.drop 1).dropLast⟩
        if content = "" then validateLines rest (i + 1)
        else
          let vals := (splitComma content).map pyStrip
          if !vals.all (fun v => v ≠ "") then
            (false, some ("Invalid array format at line " ++ natStr (i + 1) ++
              ": empty values"))
          else validateLines rest (i + 1)
      else if stripped = "\x7b\x7d" || stripped = "[]" then validateLines rest (i + 1)
      else validateLines rest (i + 1)

/-- The validator: rejects empty or whitespace-only text outright, then
scans the lines. -/
def validate_toon (toon_data : String) : Bool × Option String :=
  if toon_data = "" || pyStrip toon_data = "" then
    (false, some "TOON data is empty")
  else validateLines (splitNL toon_data) 0

/-! ### The round-trip verifier `verify_toon_roundtrip` (`app.py` 282-321) -/

/-- The key extracted from one line of TOON text by the verifier: the line
must contain a colon, its stripped form must not start with a dash, and the
regex `^\s*([^:]+):` must match.  The regex matches iff something non-empty
precedes the first colon; its greedy group, after Python then re-strips it
and removes surrounding quotes, equals the pre-colon segment without its
leading whitespace, stripped the same way (when the segment is entirely
whitespace the backtracked group is a single whitespace character, which
also strips to the empty key). -/
def line_key (line : String) : Option String :=
  if line.data.contains ':' && !startsWithDash (pyStrip line) then
    let pre := line.data.takeWhile (fun c => c ≠ ':')
    if pre.isEmpty then none
    else some (stripQuotes (pyStrip ⟨pre.dropWhile isPyWs⟩))
  else none

/-- The keys the verifier recovers from the emitted text (`app.py` lines
303-309).  Python collects them into a set; only its emptiness is ever
used, which agrees with the emptiness of this list. -/
def toon_keys (toon_data : String) : List String :=
  (splitNL toon_data).filterMap line_key

/-- The round-trip verifier: blank-output check for truthy input, then the
top-level key coverage check for objects, then the validator. -/
def verify_toon_roundtrip (json_data : Value) (toon_data : String) :
    Bool × Option String :=
  if truthy json_data && pyStrip toon_data = "" then
    (false, some "TOON output is empty but input had data")
  else
    match json_data with
    | .obj es =>
        if !es.isEmpty && (toon_keys toon_data).isEmpty then
          (false, some "No keys found in TOON output")
        else validate_toon toon_data
    | _ => validate_toon toon_data

/-! ### Specification-side definitions

These follow the wording of the specification (not the source); the
theorems below compare the source-derived definitions against them. -/

/-- Specification wording of the tabular detector: the array is non-empty,
every element is an object with at least one key, and every value inside
every element is primitive. -/
def tabular_spec (items : List Value) : Prop :=
  items ≠ [] ∧
    ∀ x ∈ items, ∃ es, x = Value.obj es ∧ es ≠ [] ∧ ∀ p ∈ es, isPrimitive p.2 = true

/-- An array rendered in the inline bracket form: non-empty with only
primitive elements (the emptiness being handled separately). -/
def inline_form : Value → Bool
  | .arr items => items.all isPrimitive
  | _ => false

/-- A key from which the verifier's line scan is guaranteed to recover a
candidate key: non-empty, free of colon and newline, and not showing a dash
as its first non-whitespace character (the scan skips dash-led lines). -/
def good_key (k : String) : Prop :=
  k ≠ "" ∧ ':' ∉ k.data ∧ '\n' ∉ k.data ∧
    (k.data.dropWhile isPyWs).head? ≠ some '-'

/-- Scanner for the remainder of a JSON string literal after the opening
quote: escape pairs are skipped, an unescaped quote must close the literal
exactly at the end, and bare characters must not be control characters. -/
def jsonLitScanSt : Bool → List Char → Bool
  | true, _ :: rest => jsonLitScanSt false rest
  | true, [] => false
  | false, c :: rest =>
      if c = '"' then rest.isEmpty
      else if c = '\\' then jsonLitScanSt true rest
      else decide (0x20 ≤ c.toNat) && jsonLitScanSt false rest
  | false, [] => false

/-- Scanner entry point (no escape pending). -/
def jsonLitScan (l : List Char) : Bool := jsonLitScanSt false l

/-- Whether a string is one syntactically valid JSON string literal. -/
def jsonLitOk (s : String) : Bool :=
  match s.data with
  | '"' :: rest => jsonLitScan rest
  | _ => false

/-! ## Supporting lemmas -/

/-- Strings with different character lists are different strings. -/
theorem str_ne_of_data_ne {s t : String} (h : s.data ≠ t.data) : s ≠ t :=
  fun he => h (he ▸ rfl)

/-- Strings whose first characters differ are different. -/
theorem str_ne_of_head_ne {s t : String} (h : s.data.head? ≠ t.data.head?) :
    s ≠ t :=
  fun he => h (he ▸ rfl)

/-- Splitting distributes over a separator occurrence. -/
theorem splitChAux_sep_append (sep : Char) (a : List Char) :
    ∀ (b acc : List Char),
      splitChAux sep (a ++ sep :: b) acc =
        splitChAux sep a acc ++ splitChAux sep b [] := by
  induction a with
  | nil => intro b acc; simp [splitChAux]
  | cons x a ih =>
      intro b acc
      by_cases hx : x = sep <;> simp [splitChAux, hx, ih]

/-- Splitting a list free of the separator yields a single piece. -/
theorem splitChAux_no_sep (sep : Char) :
    ∀ (cs acc : List Char), sep ∉ cs →
      splitChAux sep cs acc = [acc.reverse ++ cs] := by
  intro cs
  induction cs with
  | nil => intro acc _; simp [splitChAux]
  | cons x cs ih =>
      intro acc h
      have hx : ¬x = sep := fun he => h (he ▸ List.mem_cons_self x cs)
      simp only [splitChAux, if_neg hx]
      rw [ih _ (fun hm => h (List.mem_cons_of_mem x hm))]
      simp

/-- Line splitting distributes over string concatenation at a newline. -/
theorem splitNL_append (a b : String) :
    splitNL (a ++ "\n" ++ b) = splitNL a ++ splitNL b := by
  have hd : (a ++ "\n" ++ b).data = a.data ++ '\n' :: b.data := by
    rw [String.data_append, String.data_append,
      show ("\n" : String).data = ['\n'] from rfl]
    simp
  simp only [splitNL, hd, splitChAux_sep_append, List.map_append]

/-- A string without newlines is a single line. -/
theorem splitNL_no_nl {s : String} (h : '\n' ∉ s.data) : splitNL s = [s] := by
  simp only [splitNL, splitChAux_no_sep '\n' s.data [] h, List.map]
  rfl

/-- Line splitting of a newline-joined list of strings is the concatenation
of the line splittings of its elements. -/
theorem splitNL_join : ∀ (L : List String), L ≠ [] →
    splitNL (joinWith "\n" L) = L.flatMap splitNL := by
  intro L
  induction L with
  | nil => intro h; exact absurd rfl h
  | cons l L ih =>
      intro _
      match L, ih with
      | [], _ => simp [joinWith]
      | y :: ys, ih =>
          have : joinWith "\n" (l :: y :: ys) = l ++ "\n" ++ joinWith "\n" (y :: ys) := rfl
          rw [this, splitNL_append, ih (by simp)]
          simp

/-- `takeWhile` passes over a list of characters that all satisfy the
predicate. -/
theorem takeWhile_append_all {p : Char → Bool} :
    ∀ {a : List Char} (b : List Char), (∀ x ∈ a, p x = true) →
      (a ++ b).takeWhile p = a ++ b.takeWhile p := by
  intro a
  induction a with
  | nil => simp
  | cons x a ih =>
      intro b h
      have hx := h x (List.mem_cons_self x a)
      simp [List.takeWhile_cons, hx, ih b (fun y hy => h y (List.mem_cons_of_mem x hy))]

/-- `takeWhile` stops at a failing character regardless of what follows. -/
theorem takeWhile_append_stop {p : Char → Bool} {c : Char} (hc : p c = false) :
    ∀ (a b : List Char), (a ++ c :: b).takeWhile p = a.takeWhile p := by
  intro a
  induction a with
  | nil => intro b; simp [List.takeWhile_cons, hc]
  | cons x a ih =>
      intro b
      by_cases hx : p x <;> simp [List.takeWhile_cons, hx, ih]

/-- The first physical line of a string that starts with newline-free
content starts with that content. -/
theorem headLine_append_all {a : String} (b : String) (h : '\n' ∉ a.data) :
    headLine (a ++ b) = a ++ headLine b := by
  have hall : ∀ x ∈ a.data, decide (x ≠ '\n') = true := by
    intro x hx
    exact decide_eq_true (fun he => h (he ▸ hx))
  refine String.ext ?_
  show (a ++ b).data.takeWhile (fun c => decide (c ≠ '\n')) = (a ++ headLine b).data
  rw [String.data_append, String.data_append, takeWhile_append_all _ hall]
  rfl

/-- The first physical line of a newline-join is the first physical line of
the first element. -/
theorem headLine_join_cons (l : String) (L : List String) :
    headLine (joinWith "\n" (l :: L)) = headLine l := by
  match L with
  | [] => rfl
  | y :: ys =>
      have hj : joinWith "\n" (l :: y :: ys) = l ++ "\n" ++ joinWith "\n" (y :: ys) := rfl
      rw [hj]
      have hd : (l ++ "\n" ++ joinWith "\n" (y :: ys)).data =
          l.data ++ '\n' :: (joinWith "\n" (y :: ys)).data := by
        rw [String.data_append, String.data_append,
          show ("\n" : String).data = ['\n'] from rfl]
        simp
      simp only [headLine, hd]
      rw [takeWhile_append_stop (by decide)]

/-- Every character of the decimal digit list is a decimal digit
character. -/
theorem natDigitsAux_mem : ∀ (fuel n : Nat) (c : Char),
    c ∈ natDigitsAux fuel n → ∃ m, m < 10 ∧ c = hexDigit m := by
  intro fuel
  induction fuel with
  | zero => intro n c h; simp [natDigitsAux] at h
  | succ fuel ih =>
      intro n c h
      by_cases hn : n < 10
      · simp [natDigitsAux, hn] at h
        exact ⟨n, hn, h⟩
      · simp [natDigitsAux, hn] at h
        rcases h with h | h
        · exact ih _ _ h
        · exact ⟨n % 10, Nat.mod_lt _ (by norm_num), h⟩

/-- Decimal digit characters are never newlines. -/
theorem hexDigit_lt10_ne_nl : ∀ m, m < 10 → hexDigit m ≠ '\n' := by decide

/-- The decimal rendering of an integer contains no newline. -/
theorem intStr_no_newline : ∀ (n : Int), '\n' ∉ (intStr n).data := by
  intro n
  match n with
  | .ofNat m =>
      intro h
      rcases natDigitsAux_mem _ _ _ h with ⟨d, hd, he⟩
      exact hexDigit_lt10_ne_nl d hd he.symm
  | .negSucc m =>
      intro h
      rw [show intStr (.negSucc m) = "-" ++ natStr (m + 1) from rfl,
        String.data_append] at h
      rcases List.mem_append.mp h with h | h
      · simp [show ("-" : String).data = ['-'] from rfl] at h
      · rcases natDigitsAux_mem _ _ _ h with ⟨d, hd, he⟩
        exact hexDigit_lt10_ne_nl d hd he.symm

/-- Hexadecimal digit characters (of reduced arguments) are printable and
are neither quotes, backslashes nor newlines. -/
theorem hexDigit_mod16_safe : ∀ (x : Nat),
    hexDigit (x % 16) ≠ '"' ∧ hexDigit (x % 16) ≠ '\\' ∧
      hexDigit (x % 16) ≠ '\n' ∧ 0x20 ≤ (hexDigit (x % 16)).toNat := by
  intro x
  exact (by decide :
    ∀ m, m < 16 → hexDigit m ≠ '"' ∧ hexDigit m ≠ '\\' ∧
      hexDigit m ≠ '\n' ∧ 0x20 ≤ (hexDigit m).toNat) _ (Nat.mod_lt _ (by norm_num))

/-- The division-based arguments fed to `uEsc` reduce modulo 16, so `uEsc`
consists of backslash, `u` and four safe hexadecimal digits. -/
theorem uEsc_chars (n : Nat) (c : Char) (h : c ∈ uEsc n) :
    c = '\\' ∨ c = 'u' ∨ ∃ x, c = hexDigit (x % 16) := by
  simp [uEsc] at h
  rcases h with h | h | h | h | h | h
  · exact Or.inl h
  · exact Or.inr (Or.inl h)
  all_goals exact Or.inr (Or.inr ⟨_, h⟩)

/-- Characters of a `uEsc` block are never newlines. -/
theorem uEsc_no_newline (n : Nat) : '\n' ∉ uEsc n := by
  intro h
  rcases uEsc_chars _ _ h with he | he | ⟨x, he⟩
  · exact absurd he (by decide)
  · exact absurd he (by decide)
  · exact absurd he.symm (hexDigit_mod16_safe x).2.2.1

/-- No escape sequence contains a raw newline. -/
theorem escape_char_no_newline : ∀ (c : Char), '\n' ∉ escape_char c := by
  intro c h
  unfold escape_char at h
  split_ifs at h with h1 h2 h3 h4 h5 h6 h7 h8 h9
  all_goals
    first
      | (rw [List.mem_singleton] at h; exact h3 h.symm)
      | (rcases List.mem_append.mp h with h | h <;> exact uEsc_no_newline _ h)
      | (exact uEsc_no_newline _ h)
      | simp at h

/-- The JSON-quoted rendering of a string contains no raw newline. -/
theorem json_dumps_no_newline : ∀ (s : String), '\n' ∉ (json_dumps_str s).data := by
  intro s h
  rw [show (json_dumps_str s).data = '"' :: s.data.flatMap escape_char ++ ['"']
    from rfl] at h
  rcases List.mem_cons.mp h with h | h
  · exact absurd h (by decide)
  · rcases List.mem_append.mp h with h | h
    · rcases List.mem_flatMap.mp h with ⟨c, _, hc⟩
      exact escape_char_no_newline c hc
    · simp at h

/-- The guard of the scalar formatter, in membership form. -/
theorem has_special_iff {s : String} :
    has_special s = true ↔ ∃ c ∈ s.data, c ∈ special_chars := by
  simp only [has_special, List.any_eq_true]
  constructor
  · rintro ⟨c, h1, h2⟩
    exact ⟨c, by simpa using h2, h1⟩
  · rintro ⟨c, h1, h2⟩
    exact ⟨c, h2, by simpa using h1⟩

/-- The scalar formatter never emits a raw newline. -/
theorem format_value_no_newline : ∀ (v : Value), '\n' ∉ (format_value v).data := by
  intro v
  match v with
  | .null => decide
  | .bool b => cases b <;> decide
  | .num n => exact intStr_no_newline n
  | .arr items => exact (by decide : '\n' ∉ ("[]" : String).data)
  | .obj es => exact (by decide : '\n' ∉ ("\x7b\x7d" : String).data)
  | .str s =>
      by_cases hs : has_special s
      · rw [show format_value (.str s) = json_dumps_str s by simp [format_value, hs]]
        exact json_dumps_no_newline s
      · rw [show format_value (.str s) = s by simp [format_value, hs]]
        intro h
        exact hs (has_special_iff.mpr ⟨'\n', h, by decide⟩)

/-- Escape sequences are non-empty. -/
theorem escape_char_ne_nil : ∀ (c : Char), escape_char c ≠ [] := by
  intro c
  unfold escape_char
  split_ifs <;> simp [uEsc]

/-- Escaping a character list never shortens it. -/
theorem length_le_flatMap_escape : ∀ (l : List Char),
    l.length ≤ (l.flatMap escape_char).length := by
  intro l
  induction l with
  | nil => simp
  | cons c l ih =>
      have := List.length_pos.mpr (escape_char_ne_nil c)
      simp only [List.flatMap_cons, List.length_append, List.length_cons]
      omega

/-- The JSON-quoted rendering of a string is never the string itself (it is
strictly longer). -/
theorem json_dumps_ne_self : ∀ (s : String), json_dumps_str s ≠ s := by
  intro s
  apply str_ne_of_data_ne
  intro h
  have hlen := congrArg List.length h
  rw [show (json_dumps_str s).data = '"' :: s.data.flatMap escape_char ++ ['"']
    from rfl] at hlen
  have := length_le_flatMap_escape s.data
  simp only [List.length_cons, List.length_append] at hlen
  omega

/-- Scanning skips over a safe ordinary character. -/
theorem jsonLitScan_cons_safe {c : Char} (rest : List Char) (h1 : c ≠ '"')
    (h2 : c ≠ '\\') (h3 : 0x20 ≤ c.toNat) :
    jsonLitScan (c :: rest) = jsonLitScan rest := by
  unfold jsonLitScan
  rw [jsonLitScanSt, if_neg h1, if_neg h2, decide_eq_true h3]
  simp

/-- Scanning skips over a backslash escape pair. -/
theorem jsonLitScan_backslash (c : Char) (rest : List Char) :
    jsonLitScan ('\\' :: c :: rest) = jsonLitScan rest := by
  unfold jsonLitScan
  rw [jsonLitScanSt, if_neg (by decide : ¬('\\' : Char) = '"'), if_pos rfl,
    jsonLitScanSt]

/-- Scanning consumes a whole four-digit escape block. -/
theorem jsonLitScan_uEsc (n : Nat) (rest : List Char) :
    jsonLitScan (uEsc n ++ rest) = jsonLitScan rest := by
  show jsonLitScan ('\\' :: 'u' :: hexDigit (n / 4096 % 16) ::
    hexDigit (n / 256 % 16) :: hexDigit (n / 16 % 16) :: hexDigit (n % 16) :: rest) =
      jsonLitScan rest
  rw [jsonLitScan_backslash]
  rw [jsonLitScan_cons_safe _ (hexDigit_mod16_safe _).1 (hexDigit_mod16_safe _).2.1
    (hexDigit_mod16_safe _).2.2.2]
  rw [jsonLitScan_cons_safe _ (hexDigit_mod16_safe _).1 (hexDigit_mod16_safe _).2.1
    (hexDigit_mod16_safe _).2.2.2]
  rw [jsonLitScan_cons_safe _ (hexDigit_mod16_safe _).1 (hexDigit_mod16_safe _).2.1
    (hexDigit_mod16_safe _).2.2.2]
  rw [jsonLitScan_cons_safe _ (hexDigit_mod16_safe _).1 (hexDigit_mod16_safe _).2.1
    (hexDigit_mod16_safe _).2.2.2]

/-- Scanning consumes a whole escape sequence without failing. -/
theorem jsonLitScan_append_escape : ∀ (c : Char) (rest : List Char),
    jsonLitScan (escape_char c ++ rest) = jsonLitScan rest := by
  intro c rest
  unfold escape_char
  split_ifs with h1 h2 h3 h4 h5 h6 h7 h8 h9
  any_goals
    rw [show ∀ (x : Char), ['\\', x] ++ rest = '\\' :: x :: rest from fun x => rfl,
      jsonLitScan_backslash]
  · rw [List.append_assoc, jsonLitScan_uEsc, jsonLitScan_uEsc]
  · rw [jsonLitScan_uEsc]
  · rw [show [c] ++ rest = c :: rest from rfl]
    refine jsonLitScan_cons_safe rest h1 h2 ?_
    simp only [Bool.or_eq_true, decide_eq_true_eq, not_or] at h8
    omega

/-- The JSON-quoted rendering of any string is a syntactically valid JSON
string literal. -/
theorem jsonLitOk_json_dumps : ∀ (s : String), jsonLitOk (json_dumps_str s) = true := by
  intro s
  rw [show jsonLitOk (json_dumps_str s) =
    jsonLitScan (s.data.flatMap escape_char ++ ['"']) from rfl]
  induction s.data with
  | nil => decide
  | cons c l ih =>
      rw [List.flatMap_cons, List.append_assoc, jsonLitScan_append_escape]
      exact ih

/-- The first character of a concatenation with a non-empty head. -/
theorem head_append2 {a : String} (b : String) {ch : Char}
    (h : a.data.head? = some ch) : (a ++ b).data.head? = some ch := by
  simp [String.data_append, List.head?_append, h]

/-- A string whose first character is not `N` is not the no-keys
message. -/
theorem ne_nokeys_of_head {m : String} {c : Char} (hc : m.data.head? = some c)
    (hne : c ≠ 'N') : m ≠ "No keys found in TOON output" := by
  intro he
  rw [he] at hc
  exact hne (Option.some.inj hc).symm

/-- Every failure verdict of the validator loop carries a message. -/
theorem validateLines_fail_isSome : ∀ (ls : List String) (i : Nat),
    (validateLines ls i).1 = false → (validateLines ls i).2.isSome := by
  intro ls
  induction ls with
  | nil => intro i h; simp [validateLines] at h
  | cons l rest ih =>
      intro i
      simp only [validateLines]
      split_ifs <;> first | (intro _; simp) | exact ih (i + 1)

/-- The head character of the invalid-tabular message. -/
theorem invalid_tab_head (r s : String) :
    (("Invalid tabular format at line " ++ r) ++ s).data.head? = some 'I' :=
  head_append2 _ (head_append2 _ rfl)

/-- The head character of the empty-list-item message. -/
theorem empty_item_head (r : String) :
    ("Empty list item at line " ++ r).data.head? = some 'E' :=
  head_append2 _ rfl

/-- The head character of the empty-key message. -/
theorem empty_key_head (r : String) :
    ("Empty key at line " ++ r).data.head? = some 'E' :=
  head_append2 _ rfl

/-- The head character of the invalid-array message. -/
theorem invalid_arr_head (r s : String) :
    (("Invalid array format at line " ++ r) ++ s).data.head? = some 'I' :=
  head_append2 _ (head_append2 _ rfl)

/-- The validator loop never produces the verifier's no-keys message. -/
theorem validateLines_ne_nokeys : ∀ (ls : List String) (i : Nat),
    (validateLines ls i).2 ≠ some "No keys found in TOON output" := by
  intro ls
  induction ls with
  | nil => intro i; simp [validateLines]
  | cons l rest ih =>
      intro i
      simp only [validateLines]
      split_ifs <;>
        first
          | exact ih (i + 1)
          | (intro he
             exact ne_nokeys_of_head (invalid_tab_head _ _) (by decide)
               (Option.some.inj he))
          | (intro he
             exact ne_nokeys_of_head (empty_item_head _) (by decide)
               (Option.some.inj he))
          | (intro he
             exact ne_nokeys_of_head (empty_key_head _) (by decide)
               (Option.some.inj he))
          | (intro he
             exact ne_nokeys_of_head (invalid_arr_head _ _) (by decide)
               (Option.some.inj he))

/-- The whole validator never produces the verifier's no-keys message. -/
theorem validate_ne_nokeys : ∀ (t : String),
    (validate_toon t).2 ≠ some "No keys found in TOON output" := by
  intro t
  unfold validate_toon
  split_ifs
  · intro he
    exact ne_nokeys_of_head (m := "TOON data is empty") rfl (by decide)
      (Option.some.inj he)
  · exact validateLines_ne_nokeys _ _

/-- The unfolding equation of `obj_lines` on a first entry. -/
theorem obj_lines_cons (k0 : String) (v0 : Value)
    (rest : List (String × Value)) (i : Nat) :
    obj_lines ((k0, v0) :: rest) i =
      (if nonEmptyColl v0 then
        match v0 with
        | .arr items =>
            if tabular_check items then
              (indent_string i ++ key_string k0 ++ ":") ::
                table_lines items (indent_string (i + 1))
            else
              [indent_string i ++ key_string k0 ++ ":",
                json_to_toon (.arr items) (i + 1)]
        | v2 => [indent_string i ++ key_string k0 ++ ":", json_to_toon v2 (i + 1)]
      else
        [indent_string i ++ key_string k0 ++ ": " ++ format_value v0]) ++
        obj_lines rest i := by
  rw [obj_lines.eq_def]

/-- The unfolding equation of `obj_lines` on the empty entry list. -/
theorem obj_lines_nil (i : Nat) : obj_lines [] i = [] := by
  rw [obj_lines.eq_def]

/-- The unfolding equation of `list_lines` on a first item. -/
theorem list_lines_cons (x : Value) (xs : List Value) (i : Nat) :
    list_lines (x :: xs) i =
      (if nonEmptyColl x then
        (indent_string i ++ "-") ::
          (splitNL (json_to_toon x i)).filterMap (fun line =>
            if pyStrip line = "" then none
            else some (indent_string i ++ "  " ++ pyLstrip line))
      else
        [indent_string i ++ "- " ++ json_to_toon x i]) ++ list_lines xs i := by
  rw [list_lines.eq_def]

/-- The unfolding equation of the encoder on objects. -/
theorem json_to_toon_obj (es : List (String × Value)) (i : Nat) :
    json_to_toon (.obj es) i =
      if es.isEmpty then "\x7b\x7d" else joinWith "\n" (obj_lines es i) := by
  rw [json_to_toon.eq_def]

/-- The unfolding equation of the encoder on arrays. -/
theorem json_to_toon_arr (items : List Value) (i : Nat) :
    json_to_toon (.arr items) i =
      if items.isEmpty then "[]"
      else if items.all isPrimitive then
        "[" ++ joinWith ", " (items.map format_value) ++ "]"
      else if tabular_check items then
        joinWith "\n" (table_lines items (indent_string i))
      else joinWith "\n" (list_lines items i) := by
  rw [json_to_toon.eq_def]

/-- Each object entry contributes its header line to the rendered lines:
the line made of the indentation, the escaped key, and either a bare colon
(for block values) or a colon-space-scalar tail. -/
theorem obj_lines_entry_mem : ∀ (es : List (String × Value)) (k : String)
    (v : Value) (i : Nat), (k, v) ∈ es →
    (indent_string i ++ key_string k ++
      (if nonEmptyColl v then ":" else ": " ++ format_value v)) ∈ obj_lines es i := by
  intro es
  induction es with
  | nil => intro k v i h; simp at h
  | cons e rest ih =>
      intro k v i h
      rcases e with ⟨k0, v0⟩
      rw [obj_lines_cons]
      rcases List.mem_cons.mp h with h | h
      · injection h with h1 h2
        subst h1
        subst h2
        apply List.mem_append_left
        by_cases hne : nonEmptyColl v
        · rw [if_pos hne, if_pos hne]
          cases v with
          | arr items =>
              by_cases ht : tabular_check items
              · simp only [ht, if_true]
                exact List.mem_cons_self _ _
              · simp only [ht, if_false]
                exact List.mem_cons_self _ _
          | obj es2 => exact List.mem_cons_self _ _
          | null => exact List.mem_cons_self _ _
          | bool b => exact List.mem_cons_self _ _
          | num n => exact List.mem_cons_self _ _
          | str s => exact List.mem_cons_self _ _
        · rw [if_neg hne, if_neg hne]
          simp [String.append_assoc]
      · exact List.mem_append_right _ (ih k v i h)

/-- The rendered lines of a non-empty object start with a line that carries
the indentation of the current level. -/
theorem obj_lines_cons_shape : ∀ (k0 : String) (v0 : Value)
    (rest : List (String × Value)) (i : Nat),
    ∃ r L, obj_lines ((k0, v0) :: rest) i = (indent_string i ++ r) :: L := by
  intro k0 v0 rest i
  rw [obj_lines_cons]
  by_cases hne : nonEmptyColl v0
  · rw [if_pos hne]
    cases v0 with
    | arr items =>
        by_cases ht : tabular_check items
        · simp only [ht, if_true]
          exact ⟨key_string k0 ++ ":", _, by rw [String.append_assoc]; rfl⟩
        · simp only [ht, if_false]
          exact ⟨key_string k0 ++ ":", _, by rw [String.append_assoc]; rfl⟩
    | obj es2 => exact ⟨key_string k0 ++ ":", _, by rw [String.append_assoc]; rfl⟩
    | null => exact ⟨key_string k0 ++ ":", _, by rw [String.append_assoc]; rfl⟩
    | bool b => exact ⟨key_string k0 ++ ":", _, by rw [String.append_assoc]; rfl⟩
    | num n => exact ⟨key_string k0 ++ ":", _, by rw [String.append_assoc]; rfl⟩
    | str s => exact ⟨key_string k0 ++ ":", _, by rw [String.append_assoc]; rfl⟩
  · rw [if_neg hne]
    exact ⟨key_string k0 ++ (": " ++ format_value v0), _, by
      rw [String.append_assoc, String.append_assoc]; rfl⟩

/-- The rendered lines of a non-empty regular list start with a line that
carries the indentation of the current level. -/
theorem list_lines_cons_shape : ∀ (x : Value) (xs : List Value) (i : Nat),
    ∃ r L, list_lines (x :: xs) i = (indent_string i ++ r) :: L := by
  intro x xs i
  rw [list_lines_cons]
  by_cases hne : nonEmptyColl x
  · rw [if_pos hne]
    exact ⟨"-", _, rfl⟩
  · rw [if_neg hne]
    exact ⟨"- " ++ json_to_toon x i, _, by rw [String.append_assoc]; rfl⟩

/-- The per-item loop is the concatenation of the per-item renderings. -/
theorem list_lines_eq_flatMap : ∀ (items : List Value) (i : Nat),
    list_lines items i = items.flatMap (item_lines i) := by
  intro items
  induction items with
  | nil => intro i; simp [list_lines]
  | cons x xs ih =>
      intro i
      rw [list_lines_cons, List.flatMap_cons, item_lines, ih]

/-! ## Claim theorems: counterexamples and concrete claims -/

/-- Claim C1, counterexample: the object with the single key `""` has at
least one key, yet `verify` on its own encoding fails with exactly
"No keys found in TOON output" — the emitted line `: 1` gives the key
regex nothing to match. -/
theorem C1_counterexample :
    verify_toon_roundtrip (.obj [("", .num 1)])
      (json_to_toon (.obj [("", .num 1)]) 0) =
      (false, some "No keys found in TOON output") := by
  simp [json_to_toon, obj_lines]
  decide

/-- Claim C2, counterexample: the entry value `[1, 2]` is a non-empty array
rendered as a block after its `a:` header, yet its line carries no
indentation at all instead of one level (2 spaces) more than the header. -/
theorem C2_counterexample :
    json_to_toon (.obj [("a", .arr [.num 1, .num 2])]) 0 = "a:\n[1, 2]" ∧
      ¬ (indent_string 1).data.isPrefixOf ("[1, 2]" : String).data := by
  constructor
  · simp [json_to_toon, obj_lines]
    decide
  · decide

/-- Claim C6, counterexample: in a tabular row, the string cell `x|"y`
requires quoting (it contains a pipe), but the emitted cell is the naive
wrap `"x|"y"`, which is not the JSON encoding of the string and not a valid
JSON string literal. -/
theorem C6_counterexample :
    json_to_toon (.arr [.obj [("a", .str "x|\"y")], .obj [("a", .str "z")]]) 0 =
        "a\n\"x|\"y\"\nz" ∧
      format_cell (.str "x|\"y") = "\"x|\"y\"" ∧
      format_cell (.str "x|\"y") ≠ json_dumps_str "x|\"y" ∧
      jsonLitOk (format_cell (.str "x|\"y")) = false := by
  refine ⟨?_, by decide, by decide, by decide⟩
  simp [json_to_toon]
  decide

/-- Claim C7, counterexample: the array `[[1]]` is rendered in the per-item
form, but the list-item line for its (non-empty array) element is the bare
dash `-`, not `-` plus one space plus content. -/
theorem C7_counterexample :
    json_to_toon (.arr [.arr [.num 1]]) 0 = "-\n  [1]" ∧
      splitNL (json_to_toon (.arr [.arr [.num 1]]) 0) = ["-", "  [1]"] ∧
      ¬ ("- " : String).data.isPrefixOf ("-" : String).data := by
  refine ⟨?_, ?_, by decide⟩ <;> (simp [json_to_toon, list_lines]; decide)

/-- Claim C8, counterexample: the validator alone, applied to the empty
text, does fail — with its own message — contradicting the claim that
emptiness is checked only by the round-trip verifier. -/
theorem C8_counterexample :
    validate_toon "" = (false, some "TOON data is empty") := by decide

/-- Claim C9, counterexample: the validator does not reject the line
`a | | b`: non-overlapping splitting on the three-character separator
yields the parts `a` and `| b`, neither of which is empty after stripping,
so the line passes as a tabular row. -/
theorem C9_counterexample : validate_toon "a | | b" = (true, none) := by decide

/-- Claim C9 (amended): the validator accepts `a | | b` (its split parts
are `a` and `| b`, both non-empty), rejects the genuinely empty middle
column of `a |  | b`, rejects a bare `-`, and accepts `- item`,
`key: value`, `[1, 2]`, an empty-object marker and `[]`. -/
theorem C9_amended_validator_cases :
    validate_toon "a | | b" = (true, none) ∧
      validate_toon "a |  | b" =
        (false, some "Invalid tabular format at line 1: empty columns") ∧
      validate_toon "-" = (false, some "Empty list item at line 1") ∧
      validate_toon "- item" = (true, none) ∧
      validate_toon "key: value" = (true, none) ∧
      validate_toon "[1, 2]" = (true, none) ∧
      validate_toon "\x7b\x7d" = (true, none) ∧
      validate_toon "[]" = (true, none) := by decide

/-- Claim C10: the pipeline rejects its own output on these inputs.  The
array whose element is an object with a nested array value produces a bare
dash line, rejected as an empty list item; the tabular array whose second
row lacks the middle field `b` produces a row with an empty column,
rejected as invalid tabular format. -/
theorem C10_pipeline_rejects_own_output :
    verify_toon_roundtrip (.arr [.obj [("a", .arr [.num 1])]])
        (json_to_toon (.arr [.obj [("a", .arr [.num 1])]]) 0) =
        (false, some "Empty list item at line 1") ∧
      verify_toon_roundtrip
        (.arr [.obj [("a", .num 1), ("b", .num 2), ("c", .num 3)],
               .obj [("a", .num 1), ("c", .num 3)]])
        (json_to_toon (.arr [.obj [("a", .num 1), ("b", .num 2), ("c", .num 3)],
               .obj [("a", .num 1), ("c", .num 3)]]) 0) =
        (false, some "Invalid tabular format at line 3: empty columns") := by
  constructor <;> (simp [json_to_toon, obj_lines, list_lines]; decide)

/-! ## More supporting lemmas -/

/-- Failure verdicts of the whole validator always carry a message. -/
theorem validate_fail_isSome (t : String) :
    (validate_toon t).1 = false → (validate_toon t).2.isSome := by
  unfold validate_toon
  split_ifs
  · intro _; simp
  · exact validateLines_fail_isSome _ _

/-- The per-row tabular condition in specification form. -/
theorem tabular_row_ok_iff (x : Value) :
    tabular_row_ok x = true ↔
      ∃ es, x = Value.obj es ∧ es ≠ [] ∧ ∀ p ∈ es, isPrimitive p.2 = true := by
  cases x with
  | obj es =>
      constructor
      · intro h
        rw [tabular_row_ok, Bool.and_eq_true] at h
        exact ⟨es, rfl, by simpa using h.1, by simpa [List.all_eq_true] using h.2⟩
      · rintro ⟨es2, he, h1, h2⟩
        injection he with he2
        subst he2
        rw [tabular_row_ok, Bool.and_eq_true]
        exact ⟨by simpa using h1, by simpa [List.all_eq_true] using h2⟩
  | null => simp [tabular_row_ok]
  | bool b => simp [tabular_row_ok]
  | num n => simp [tabular_row_ok]
  | str s => simp [tabular_row_ok]
  | arr items => simp [tabular_row_ok]

/-- Appending a binding with a fresh key does not change lookups at other
keys. -/
theorem lookupEntry_append_not_key : ∀ (es : List (String × Value)) (k : String)
    (v : Value) (k2 : String), k2 ≠ k →
    lookupEntry (es ++ [(k, v)]) k2 = lookupEntry es k2 := by
  intro es k v k2 hne
  induction es with
  | nil =>
      simp [lookupEntry]
      exact fun h => hne h.symm
  | cons e rest ih =>
      rcases e with ⟨k0, v0⟩
      by_cases h0 : k0 = k2 <;> simp [lookupEntry, h0, ih]

/-! ## Claim theorems: totality, detector, formatter, amendments -/

/-- Claim C3: encode and verify are total.  In this embedding every
function is a total Lean function, so the encoder always returns a string;
moreover the verifier and the validator always return a verdict pair, and
whenever the verdict is invalid it carries a message rather than an
exception. -/
theorem C3_encode_verify_total :
    (∀ (v : Value) (i : Nat), ∃ s : String, json_to_toon v i = s) ∧
    (∀ (jd : Value) (t : String), ∃ p : Bool × Option String,
        verify_toon_roundtrip jd t = p ∧ (p.1 = false → p.2.isSome)) ∧
    (∀ (t : String), (validate_toon t).1 = false → (validate_toon t).2.isSome) := by
  refine ⟨fun v i => ⟨_, rfl⟩, fun jd t => ⟨_, rfl, ?_⟩, validate_fail_isSome⟩
  unfold verify_toon_roundtrip
  split
  · intro _; simp
  · split
    · split
      · intro _; simp
      · exact validate_fail_isSome t
    · exact validate_fail_isSome t

/-- Claim C3, witness: the verifier verdict for the bare-dash text is
invalid and carries a message. -/
theorem C3_encode_verify_total_witness : (validate_toon "-").2.isSome :=
  C3_encode_verify_total.2.2 "-" (by decide)

/-- Claim C4: the tabular branch is taken exactly for non-empty arrays of
non-empty objects with only primitive values; the emitted header comes from
the first element's key order; a field absent from a row is rendered as the
empty string; and keys outside the field list do not influence a row. -/
theorem C4_tabular_detector :
    (∀ (items : List Value), tabular_eligible items = true ↔ tabular_spec items) ∧
    (∀ (items : List Value) (s : String) (es0 : List (String × Value))
        (rest : List Value), items = Value.obj es0 :: rest →
        (table_lines items s).head? =
          some (s ++ joinWith " | " (es0.map (fun e => e.1)))) ∧
    (∀ (es : List (String × Value)) (k : String), lookupEntry es k = none →
        format_cell (objGet (.obj es) k) = "") ∧
    (∀ (keys : List String) (es : List (String × Value)) (k : String)
        (v : Value), k ∉ keys →
        row_values keys (.obj (es ++ [(k, v)])) = row_values keys (.obj es)) := by
  refine ⟨fun items => ?_, fun items s es0 rest h => by subst h; rfl,
    fun es k h => by simp [objGet, h, format_cell], ?_⟩
  · rw [tabular_eligible, Bool.and_eq_true, tabular_spec, tabular_check,
      List.all_eq_true]
    constructor
    · rintro ⟨h1, h2⟩
      exact ⟨by simpa using h1, fun x hx => (tabular_row_ok_iff x).mp (h2 x hx)⟩
    · rintro ⟨h1, h2⟩
      exact ⟨by simpa using h1, fun x hx => (tabular_row_ok_iff x).mpr (h2 x hx)⟩
  · intro keys es k v hk
    apply List.map_congr_left
    intro a ha
    have hne : a ≠ k := fun he => hk (he ▸ ha)
    simp [objGet, lookupEntry_append_not_key es k v a hne]

/-- Claim C4, witness: appending an extra key to a row leaves its rendering
against the first element's field list unchanged. -/
theorem C4_tabular_detector_witness :
    row_values ["a"] (.obj ([("a", Value.num 1)] ++ [("x", Value.null)])) =
      row_values ["a"] (.obj [("a", Value.num 1)]) :=
  C4_tabular_detector.2.2.2 ["a"] [("a", Value.num 1)] "x" Value.null (by decide)

/-- Claim C5: the scalar formatter renders null as `null`, booleans in
lowercase, and a string verbatim exactly when it contains none of the eight
delimiter characters, falling back to the JSON-quoted literal otherwise.
Determinism is immediate: the formatter is a pure function of its
argument. -/
theorem C5_scalar_formatter :
    format_value .null = "null" ∧
    (∀ b : Bool, format_value (.bool b) = if b then "true" else "false") ∧
    (∀ s : String, format_value (.str s) = s ↔ ∀ c ∈ s.data, c ∉ special_chars) ∧
    (∀ s : String, (∃ c ∈ s.data, c ∈ special_chars) →
        format_value (.str s) = json_dumps_str s) := by
  refine ⟨rfl, fun b => rfl, fun s => ?_, fun s h => ?_⟩
  · constructor
    · intro he c hc hcs
      by_cases hs : has_special s
      · rw [show format_value (.str s) = json_dumps_str s by
          simp [format_value, hs]] at he
        exact json_dumps_ne_self s he
      · exact hs (has_special_iff.mpr ⟨c, hc, hcs⟩)
    · intro hall
      have hs : ¬ has_special s = true := fun hs => by
        rcases has_special_iff.mp hs with ⟨c, h1, h2⟩
        exact hall c h1 h2
      simp [format_value, hs]
  · have hs : has_special s = true := has_special_iff.mpr h
    simp [format_value, hs]

/-- Claim C5, witness: `a:b` contains a colon, so it is JSON-quoted, and
the quoted form is `"a:b"`. -/
theorem C5_scalar_formatter_witness :
    format_value (.str "a:b") = json_dumps_str "a:b" ∧
      json_dumps_str "a:b" = "\"a:b\"" :=
  ⟨C5_scalar_formatter.2.2.2 "a:b" ⟨':', by decide, by decide⟩, by decide⟩

/-- Claim C6 (amended): only the scalar formatter quotes with the JSON
encoder (and those quotings are valid JSON literals); a tabular cell that
needs quoting is wrapped in bare double quotes with no escaping at all. -/
theorem C6_amended_quoting :
    (∀ s : String, ('|' ∈ s.data ∨ '\n' ∈ s.data) →
        format_cell (.str s) = "\"" ++ s ++ "\"") ∧
    (∀ s : String, has_special s = true →
        format_value (.str s) = json_dumps_str s) ∧
    (∀ s : String, jsonLitOk (json_dumps_str s) = true) := by
  refine ⟨fun s h => ?_, fun s h => by simp [format_value, h], jsonLitOk_json_dumps⟩
  have hc : (s.data.contains '|' || s.data.contains '\n') = true := by
    rcases h with h | h <;> simp [h]
  show (if s.data.contains '|' || s.data.contains '\n' then "\"" ++ s ++ "\"" else s) =
    "\"" ++ s ++ "\""
  rw [if_pos hc]

/-- Claim C6, witness: a pipe-containing cell is wrapped without
escaping. -/
theorem C6_amended_quoting_witness :
    format_cell (.str "x|\"y") = "\"" ++ "x|\"y" ++ "\"" :=
  C6_amended_quoting.1 "x|\"y" (Or.inl (by decide))

/-- Claim C7 (amended): the regular list loop renders one group of lines
per item; a primitive or empty item gives the single line dash-space-item,
while a non-empty collection item gives a bare dash line followed by its
re-indented content lines (each two spaces deeper). -/
theorem C7_amended_list_items :
    (∀ (items : List Value) (i : Nat),
        list_lines items i = items.flatMap (item_lines i)) ∧
    (∀ (i : Nat) (item : Value), nonEmptyColl item = false →
        item_lines i item = [indent_string i ++ "- " ++ json_to_toon item i]) ∧
    (∀ (i : Nat) (item : Value), nonEmptyColl item = true →
        (item_lines i item).head? = some (indent_string i ++ "-") ∧
          ∀ l ∈ (item_lines i item).tail, ∃ r, l = indent_string i ++ "  " ++ r) := by
  refine ⟨list_lines_eq_flatMap, fun i item h => by simp [item_lines, h],
    fun i item h => ?_⟩
  constructor
  · simp [item_lines, h]
  · intro l hl
    simp only [item_lines, h, if_true, List.tail_cons] at hl
    rcases List.mem_filterMap.mp hl with ⟨line, _, hline⟩
    by_cases hb : pyStrip line = ""
    · simp [hb] at hline
    · simp only [hb, if_false, Option.some.injEq] at hline
      exact ⟨pyLstrip line, by rw [← hline, String.append_assoc]⟩

/-- Claim C7, witness: a primitive item gets the dash-space form. -/
theorem C7_amended_list_items_witness :
    item_lines 0 (Value.num 3) =
      [indent_string 0 ++ "- " ++ json_to_toon (Value.num 3) 0] :=
  C7_amended_list_items.2.1 0 (Value.num 3) (by decide)

/-- Claim C8 (amended): the validator itself rejects empty or
whitespace-only text with "TOON data is empty"; the verifier additionally
pre-checks blank output for truthy inputs with its own message before
delegating. -/
theorem C8_amended_emptiness :
    validate_toon "" = (false, some "TOON data is empty") ∧
    validate_toon " \n  " = (false, some "TOON data is empty") ∧
    (∀ (jd : Value) (t : String), truthy jd = true → pyStrip t = "" →
        verify_toon_roundtrip jd t =
          (false, some "TOON output is empty but input had data")) := by
  refine ⟨by decide, by decide, fun jd t h1 h2 => ?_⟩
  unfold verify_toon_roundtrip
  rw [if_pos]
  rw [h1, h2]
  simp

/-- Claim C8, witness: a truthy input with blank output fails with the
verifier's blank-output message. -/
theorem C8_amended_emptiness_witness :
    verify_toon_roundtrip (.num 1) "" =
      (false, some "TOON output is empty but input had data") :=
  C8_amended_emptiness.2.2 (.num 1) "" (by decide) (by decide)

/-- Indentation contains no newline. -/
theorem indent_no_newline (n : Nat) : '\n' ∉ (indent_string n).data := by
  intro h
  rw [show (indent_string n).data = List.replicate (2 * n) ' ' from rfl] at h
  rcases List.mem_replicate.mp h with ⟨_, he⟩
  exact absurd he (by decide)

/-- The first physical line of an indented string keeps the indentation. -/
theorem headLine_indent (m : Nat) (r : String) :
    headLine (indent_string m ++ r) = indent_string m ++ headLine r :=
  headLine_append_all r (indent_no_newline m)

/-- Claim C2 (amended): a block value rendered after a `key:` header starts
exactly one level (2 spaces) deeper — unless the value is a non-empty
all-primitive array: that one is rendered inline and appended with no
indentation at all, its first character being `[`. -/
theorem C2_amended_block_indentation :
    (∀ (i : Nat) (v : Value), nonEmptyColl v = true → inline_form v = false →
        ∃ r, headLine (json_to_toon v (i + 1)) = indent_string (i + 1) ++ r) ∧
    (∀ (i : Nat) (v : Value), nonEmptyColl v = true → inline_form v = true →
        (json_to_toon v (i + 1)).data.head? = some '[') ∧
    (∀ (i : Nat) (items : List Value), ∃ r,
        (table_lines items (indent_string (i + 1))).head? =
          some (indent_string (i + 1) ++ r)) := by
  refine ⟨fun i v h1 h2 => ?_, fun i v h1 h2 => ?_,
    fun i items => ⟨joinWith " | " (firstKeys items), rfl⟩⟩
  · cases v with
    | null => simp [nonEmptyColl] at h1
    | bool b => simp [nonEmptyColl] at h1
    | num n => simp [nonEmptyColl] at h1
    | str s => simp [nonEmptyColl] at h1
    | obj es =>
        have hes : ¬es.isEmpty = true := by
          simpa [nonEmptyColl] using h1
        rw [json_to_toon_obj, if_neg hes]
        match es with
        | (k0, v0) :: rest =>
            rcases obj_lines_cons_shape k0 v0 rest (i + 1) with ⟨r, L, hshape⟩
            rw [hshape, headLine_join_cons, headLine_indent]
            exact ⟨headLine r, rfl⟩
    | arr items =>
        have hne : ¬items.isEmpty = true := by
          simpa [nonEmptyColl] using h1
        have hprim : ¬items.all isPrimitive = true := by
          simpa [inline_form] using h2
        rw [json_to_toon_arr, if_neg hne, if_neg hprim]
        by_cases ht : tabular_check items
        · rw [if_pos ht]
          show ∃ r, headLine (joinWith "\n"
            ((indent_string (i + 1) ++ joinWith " | " (firstKeys items)) ::
              items.map (fun item => indent_string (i + 1) ++
                joinWith " | " (row_values (firstKeys items) item)))) =
            indent_string (i + 1) ++ r
          rw [headLine_join_cons, headLine_indent]
          exact ⟨headLine (joinWith " | " (firstKeys items)), rfl⟩
        · rw [if_neg ht]
          match items with
          | x :: xs =>
              rcases list_lines_cons_shape x xs (i + 1) with ⟨r, L, hshape⟩
              rw [hshape, headLine_join_cons, headLine_indent]
              exact ⟨headLine r, rfl⟩
  · cases v with
    | null => simp [inline_form] at h2
    | bool b => simp [inline_form] at h2
    | num n => simp [inline_form] at h2
    | str s => simp [inline_form] at h2
    | obj es => simp [inline_form] at h2
    | arr items =>
        have hne : ¬items.isEmpty = true := by
          simpa [nonEmptyColl] using h1
        have hprim : items.all isPrimitive = true := by
          simpa [inline_form] using h2
        rw [json_to_toon_arr, if_neg hne, if_pos hprim]
        exact head_append2 _ (head_append2 _ rfl)

/-- Claim C2, witness: a one-entry object block under an entry at level 0
begins with exactly one level of indentation. -/
theorem C2_amended_block_indentation_witness :
    ∃ r, headLine (json_to_toon (.obj [("x", Value.num 1)]) (0 + 1)) =
      indent_string (0 + 1) ++ r :=
  C2_amended_block_indentation.1 0 (.obj [("x", Value.num 1)]) (by decide) (by decide)

/-- The head of a `dropWhile` result fails the predicate. -/
theorem dropWhile_head_false {p : Char → Bool} : ∀ {l : List Char} {c : Char}
    {cs : List Char}, l.dropWhile p = c :: cs → p c = false := by
  intro l
  induction l with
  | nil => intro c cs h; simp at h
  | cons x xs ih =>
      intro c cs h
      rw [List.dropWhile_cons] at h
      split_ifs at h with hx
      · exact ih h
      · injection h with h1 _
        subst h1
        exact Bool.not_eq_true _ ▸ hx

/-- Stripping whitespace from both ends keeps the first non-whitespace
character in front. -/
theorem strip_head {l : List Char} {c : Char} {cs : List Char}
    (h : l.dropWhile isPyWs = c :: cs) :
    ((l.dropWhile isPyWs).reverse.dropWhile isPyWs).reverse.head? = some c := by
  have hc : isPyWs c = false := dropWhile_head_false h
  rw [h, List.head?_reverse, List.reverse_cons, List.dropWhile_append]
  split_ifs
  · rw [List.dropWhile_cons, hc]
    simp
  · rw [List.getLast?_concat]

/-- The data of a rendered key. -/
theorem key_string_data (k : String) :
    (key_string k).data =
      if key_needs_quote k then '"' :: k.data ++ ['"'] else k.data := by
  unfold key_string
  split_ifs
  · rw [String.data_append, String.data_append]
    simp
  · rfl

/-- A colon-free key renders colon-free. -/
theorem key_string_no_colon {k : String} (h : ':' ∉ k.data) :
    ':' ∉ (key_string k).data := by
  rw [key_string_data]
  split_ifs
  · intro hm
    rcases List.mem_cons.mp hm with hm | hm
    · exact absurd hm (by decide)
    · rcases List.mem_append.mp hm with hm | hm
      · exact h hm
      · simp at hm
  · exact h

/-- A newline-free key renders newline-free. -/
theorem key_string_no_newline {k : String} (h : '\n' ∉ k.data) :
    '\n' ∉ (key_string k).data := by
  rw [key_string_data]
  split_ifs
  · intro hm
    rcases List.mem_cons.mp hm with hm | hm
    · exact absurd hm (by decide)
    · rcases List.mem_append.mp hm with hm | hm
      · exact h hm
      · simp at hm
  · exact h

/-- A non-empty key renders non-empty. -/
theorem key_string_ne_nil {k : String} (h : k ≠ "") :
    (key_string k).data ≠ [] := by
  rw [key_string_data]
  split_ifs
  · simp
  · intro hd
    exact h (String.ext hd)

/-- On a line made of a rendered good key followed by a colon-led tail, the
verifier's per-line key extraction succeeds. -/
theorem line_key_of_good {k : String} (hgood : good_key k) (t : String)
    (ht : t.data.head? = some ':') :
    ∃ r, line_key (key_string k ++ t) = some r := by
  obtain ⟨hk0, hkc, hkn, hkd⟩ := hgood
  obtain ⟨trest, htd⟩ : ∃ trest, t.data = ':' :: trest := by
    cases htt : t.data with
    | nil => rw [htt] at ht; exact absurd ht (by simp)
    | cons c cs =>
        rw [htt] at ht
        exact ⟨cs, by rw [show c = ':' from by simpa using ht]⟩
  have hdata : (key_string k ++ t).data = (key_string k).data ++ ':' :: trest := by
    rw [String.data_append, htd]
  have hcontains : (key_string k ++ t).data.contains ':' = true := by
    rw [hdata]
    simp
  have hpre : (key_string k ++ t).data.takeWhile (fun c => (c ≠ ':' : Bool)) =
      (key_string k).data := by
    rw [hdata, takeWhile_append_stop (by simp)]
    have := takeWhile_append_all (a := (key_string k).data)
      (p := fun c => (c ≠ ':' : Bool)) []
      (fun x hx => decide_eq_true (fun he => key_string_no_colon hkc (he ▸ hx)))
    simpa using this
  obtain ⟨c, cs2, hdw, hcd⟩ : ∃ c cs2,
      (key_string k ++ t).data.dropWhile isPyWs = c :: cs2 ∧ c ≠ '-' := by
    rw [hdata, key_string_data]
    by_cases hq : key_needs_quote k
    · rw [if_pos hq]
      refine ⟨'"', k.data ++ '"' :: ':' :: trest, ?_, by decide⟩
      rw [show ('"' :: k.data ++ ['"']) ++ ':' :: trest =
        '"' :: (k.data ++ '"' :: ':' :: trest) by simp]
      rw [List.dropWhile_cons, if_neg (by decide : ¬isPyWs '"' = true)]
    · rw [if_neg hq, List.dropWhile_append]
      split_ifs with hemp
      · refine ⟨':', trest, ?_, by decide⟩
        rw [List.dropWhile_cons, if_neg (by decide : ¬isPyWs ':' = true)]
      · cases hkk : k.data.dropWhile isPyWs with
        | nil => rw [hkk] at hemp; simp at hemp
        | cons c0 cs0 =>
            refine ⟨c0, cs0 ++ ':' :: trest, List.cons_append c0 cs0 _, ?_⟩
            intro he
            subst he
            exact hkd (hkk ▸ rfl)
  have hh : (pyStrip (key_string k ++ t)).data.head? = some c := strip_head hdw
  have hdash : startsWithDash (pyStrip (key_string k ++ t)) = false := by
    unfold startsWithDash
    rw [hh]
    simp [hcd]
  refine ⟨stripQuotes (pyStrip ⟨((key_string k).data).dropWhile isPyWs⟩), ?_⟩
  unfold line_key
  rw [if_pos (by rw [hcontains, hdash]; rfl)]
  simp only [hpre]
  rw [if_neg (by rw [List.isEmpty_iff]; exact key_string_ne_nil hk0)]

/-- Claim C1 (amended): for every object with at least one good key — a
non-empty key containing neither colon nor newline and not showing a dash
as its first non-whitespace character — the verifier recovers at least one
top-level key from the encoding and so never fails with "No keys found in
TOON output".  The concrete example of the claim holds as stated:
`{"a": 1, "b": 2}` encodes to the lines `a: 1` and `b: 2` and verifies. -/
theorem C1_amended_key_recovery :
    (∀ (es : List (String × Value)) (k : String) (v : Value),
        (k, v) ∈ es → good_key k →
        (verify_toon_roundtrip (.obj es) (json_to_toon (.obj es) 0)).2 ≠
          some "No keys found in TOON output") ∧
    json_to_toon (.obj [("a", .num 1), ("b", .num 2)]) 0 = "a: 1\nb: 2" ∧
    splitNL (json_to_toon (.obj [("a", .num 1), ("b", .num 2)]) 0) =
      ["a: 1", "b: 2"] ∧
    verify_toon_roundtrip (.obj [("a", .num 1), ("b", .num 2)])
      (json_to_toon (.obj [("a", .num 1), ("b", .num 2)]) 0) = (true, none) := by
  refine ⟨?_, by simp [json_to_toon, obj_lines]; decide,
    by simp [json_to_toon, obj_lines]; decide,
    by simp [json_to_toon, obj_lines]; decide⟩
  intro es k v hmem hgood
  obtain ⟨hk0, hkc, hkn, hkd⟩ := id hgood
  set tail := (if nonEmptyColl v then ":" else ": " ++ format_value v) with htail
  have hline_mem : (indent_string 0 ++ key_string k ++ tail) ∈ obj_lines es 0 :=
    obj_lines_entry_mem es k v 0 hmem
  have hzero : indent_string 0 ++ key_string k = key_string k := by
    refine String.ext ?_
    rw [String.data_append, show (indent_string 0).data = [] from rfl,
      List.nil_append]
  have ht : tail.data.head? = some ':' := by
    rw [htail]
    split_ifs
    · rfl
    · exact head_append2 _ rfl
  have hlk : ∃ r, line_key (indent_string 0 ++ key_string k ++ tail) = some r := by
    rw [hzero]
    exact line_key_of_good hgood tail ht
  have hnl : '\n' ∉ (indent_string 0 ++ key_string k ++ tail).data := by
    intro h
    rw [String.data_append, String.data_append,
      show (indent_string 0).data = [] from rfl, List.nil_append] at h
    rcases List.mem_append.mp h with h | h
    · exact key_string_no_newline hkn h
    · rw [htail] at h
      split_ifs at h
      · exact absurd h (by decide)
      · rw [String.data_append] at h
        rcases List.mem_append.mp h with h | h
        · exact absurd h (by decide)
        · exact format_value_no_newline v h
  have hes : ¬(es.isEmpty = true) := by
    rw [List.isEmpty_iff]
    exact List.ne_nil_of_mem hmem
  have htext : json_to_toon (.obj es) 0 = joinWith "\n" (obj_lines es 0) := by
    rw [json_to_toon_obj, if_neg hes]
  have hsplit : (indent_string 0 ++ key_string k ++ tail) ∈
      splitNL (json_to_toon (.obj es) 0) := by
    rw [htext, splitNL_join _ (List.ne_nil_of_mem hline_mem)]
    refine List.mem_flatMap.mpr ⟨_, hline_mem, ?_⟩
    rw [splitNL_no_nl hnl]
    exact List.mem_singleton.mpr rfl
  obtain ⟨r, hr⟩ := hlk
  have htk : ¬((toon_keys (json_to_toon (.obj es) 0)).isEmpty = true) := by
    rw [List.isEmpty_iff]
    intro he
    have hrm : r ∈ toon_keys (json_to_toon (.obj es) 0) :=
      List.mem_filterMap.mpr ⟨_, hsplit, hr⟩
    rw [he] at hrm
    simp at hrm
  unfold verify_toon_roundtrip
  split
  · intro he
    exact ne_nokeys_of_head (m := "TOON output is empty but input had data")
      rfl (by decide) (Option.some.inj he)
  · show ((if !es.isEmpty && (toon_keys (json_to_toon (.obj es) 0)).isEmpty then
        ((false : Bool), some "No keys found in TOON output")
      else validate_toon (json_to_toon (.obj es) 0))).2 ≠
        some "No keys found in TOON output"
    rw [if_neg]
    · exact validate_ne_nokeys _
    · rw [Bool.and_eq_true]
      rintro ⟨_, h2⟩
      exact htk h2

/-- Claim C1, witness: a one-entry object with the good key `a` never
triggers the no-keys failure on its own encoding. -/
theorem C1_amended_key_recovery_witness :
    (verify_toon_roundtrip (.obj [("a", Value.num 1)])
      (json_to_toon (.obj [("a", Value.num 1)]) 0)).2 ≠
      some "No keys found in TOON output" :=
  C1_amended_key_recovery.1 [("a", Value.num 1)] "a" (Value.num 1)
    (List.mem_singleton.mpr rfl)
    ⟨by decide, by decide, by decide, by decide⟩

end JsonToToon
